import Mathlib

set_option maxRecDepth 8192

/-!
Shallow embedding of the generate-cordova-build-configuration step (src/main.go).

The repository contains two variants of the program in one source file:
the first (input.ValidateWithOptions based, lines 1-229) validates the two
enumerated inputs and displays the serialized document unredacted; the second
(stepconf based, lines 230-430) skips enumerated-value validation but masks the
two password fields in the displayed copy.  Both variants share the keystore
resolution, document assembly, serialization, persistence and publish logic.
Pure functions are translated directly; the external world (temp directory
creation, path absolutization, HTTP, file writes, envman) is an explicit
`World` record, and each run yields a result together with a trace of the
I/O events it performed.
-/

/-- Mirror of `ConfigsModel` (src/main.go lines 21-33 / 250-262): the nine
string inputs read from the environment. -/
structure ConfigsModel where
  Configuration : String
  DevelopmentTeam : String
  CodeSignIdentity : String
  ProvisioningProfile : String
  PackageType : String
  KeystoreURL : String
  KeystorePassword : String
  KeystoreAlias : String
  PrivateKeyPassword : String
deriving DecidableEq, Repr

/-- Mirror of go-steputils `input.ValidateWithOptions`: rejects the empty
string, otherwise accepts exactly the values in `options`. -/
def validateWithOptions (value : String) (options : List String) : Except String Unit :=
  if value = "" then Except.error "parameter not specified"
  else if options.contains value then Except.ok ()
  else Except.error ("invalid parameter: " ++ value)

/-- The allowed `configuration` values (src/main.go line 69). -/
def configurationOptions : List String := ["release", "debug"]

/-- The allowed `package_type` values (src/main.go line 73). -/
def packageTypeOptions : List String := ["none", "development", "enterprise", "ad-hoc", "app-store"]

/-- Mirror of `ConfigsModel.validate` (src/main.go lines 68-78). -/
def ConfigsModel.validate (c : ConfigsModel) : Except String Unit :=
  match validateWithOptions c.Configuration configurationOptions with
  | Except.error e => Except.error ("Configuration: " ++ e)
  | Except.ok _ =>
    match validateWithOptions c.PackageType packageTypeOptions with
    | Except.error e => Except.error ("PackageType: " ++ e)
    | Except.ok _ => Except.ok ()

/-- Mirror of `IOSBuildConfigurationItem` (src/main.go lines 81-86). -/
structure IOSBuildConfigurationItem where
  CodeSignIdentity : String
  ProvisioningProfile : String
  DevelopmentTeam : String
  PackageType : String
deriving DecidableEq, Repr

/-- Mirror of `AndroidBuildConfigurationItem` (src/main.go lines 89-94). -/
structure AndroidBuildConfigurationItem where
  Keystore : String
  StorePassword : String
  Alias : String
  Password : String
deriving DecidableEq, Repr

/-- Mirror of `BuildConfiguration` (src/main.go lines 97-100).  The Go maps are
modelled as association lists; `none` is Go's nil map. -/
structure BuildConfiguration where
  Android : Option (List (String × AndroidBuildConfigurationItem))
  IOS : Option (List (String × IOSBuildConfigurationItem))
deriving DecidableEq, Repr

/-- Association-list lookup, mirroring Go map indexing (`m[k]`, with the
`ok` flag modelled by `Option`). -/
def lookupKey {α : Type} (k : String) : List (String × α) → Option α
  | [] => none
  | kv :: rest => if kv.1 = k then some kv.2 else lookupKey k rest

/-- Association-list key update, mirroring Go map assignment (`m[k] = v`). -/
def updateKey {α : Type} (k : String) (v : α) : List (String × α) → List (String × α)
  | [] => [(k, v)]
  | kv :: rest => if kv.1 = k then (k, v) :: rest else kv :: updateKey k v rest

/-- Lower-case hexadecimal digit, as used by encoding/json escapes. -/
def hexDigit (n : Nat) : Char :=
  if n < 10 then Char.ofNat (48 + n) else Char.ofNat (97 + (n - 10))

/-- Character escaping of Go's encoding/json string encoder (HTML escaping on,
as `json.Marshal` uses by default). -/
def jsonEscapeChar (ch : Char) : String :=
  if ch = '"' then "\\\""
  else if ch = '\\' then "\\\\"
  else if ch = '\n' then "\\n"
  else if ch = '\r' then "\\r"
  else if ch = '\t' then "\\t"
  else if ch = '<' ∨ ch = '>' ∨ ch = '&' ∨ ch.toNat < 32 then
    "\\u00" ++ String.mk [hexDigit (ch.toNat / 16), hexDigit (ch.toNat % 16)]
  else String.singleton ch

/-- A JSON string literal for `s`. -/
def jsonQuote (s : String) : String :=
  "\"" ++ String.join (s.data.map jsonEscapeChar) ++ "\""

/-- Insertion step for sorting map keys, as encoding/json sorts map keys. -/
def insertByKey {α : Type} (kv : String × α) : List (String × α) → List (String × α)
  | [] => [kv]
  | h :: t => if kv.1 < h.1 then kv :: h :: t else h :: insertByKey kv t

/-- Sort an association list by key (encoding/json serializes Go maps in
sorted key order). -/
def sortByKey {α : Type} : List (String × α) → List (String × α)
  | [] => []
  | kv :: rest => insertByKey kv (sortByKey rest)

/-- Serialized fields of an `AndroidBuildConfigurationItem`: every field
carries `omitempty` (src/main.go lines 89-94), so an empty string drops the
field. -/
def androidItemFields (it : AndroidBuildConfigurationItem) : List (String × String) :=
  (if it.Keystore = "" then [] else [("keystore", it.Keystore)]) ++
  (if it.StorePassword = "" then [] else [("storePassword", it.StorePassword)]) ++
  (if it.Alias = "" then [] else [("alias", it.Alias)]) ++
  (if it.Password = "" then [] else [("password", it.Password)])

/-- Serialized fields of an `IOSBuildConfigurationItem`: every field carries
`omitempty` (src/main.go lines 81-86). -/
def iosItemFields (it : IOSBuildConfigurationItem) : List (String × String) :=
  (if it.CodeSignIdentity = "" then [] else [("codeSignIdentity", it.CodeSignIdentity)]) ++
  (if it.ProvisioningProfile = "" then [] else [("provisioningProfile", it.ProvisioningProfile)]) ++
  (if it.DevelopmentTeam = "" then [] else [("developmentTeam", it.DevelopmentTeam)]) ++
  (if it.PackageType = "" then [] else [("packageType", it.PackageType)])

/-- Render an object of string fields at nesting whose key line is indented by
`ind`, following `json.MarshalIndent(v, "", "  ")` layout. -/
def renderLeafObject (ind : String) (fields : List (String × String)) : String :=
  match fields with
  | [] => "\x7b\x7d"
  | _ =>
    "\x7b\n" ++
      String.intercalate ",\n"
        (fields.map (fun kv => ind ++ "  " ++ jsonQuote kv.1 ++ ": " ++ jsonQuote kv.2)) ++
      "\n" ++ ind ++ "\x7d"

/-- Render a map object whose values are pre-fielded leaf objects. -/
def renderMapObject (ind : String) (entries : List (String × List (String × String))) : String :=
  match entries with
  | [] => "\x7b\x7d"
  | _ =>
    "\x7b\n" ++
      String.intercalate ",\n"
        (entries.map (fun kv =>
          ind ++ "  " ++ jsonQuote kv.1 ++ ": " ++ renderLeafObject (ind ++ "  ") kv.2)) ++
      "\n" ++ ind ++ "\x7d"

/-- The top-level sections that `json.MarshalIndent` emits for a
`BuildConfiguration`: both maps carry `omitempty` (src/main.go lines 97-100),
so a nil or empty map drops its section; map entries are key-sorted. -/
def sectionEntries (bc : BuildConfiguration) : List (String × List (String × List (String × String))) :=
  (match bc.Android with
   | none => []
   | some m =>
     if m = [] then []
     else [("android", (sortByKey m).map (fun kv => (kv.1, androidItemFields kv.2)))]) ++
  (match bc.IOS with
   | none => []
   | some m =>
     if m = [] then []
     else [("ios", (sortByKey m).map (fun kv => (kv.1, iosItemFields kv.2)))])

/-- Mirror of `json.MarshalIndent(buildConfig, "", "  ")` (src/main.go line 212 / 393). -/
def marshalIndentBuildConfiguration (bc : BuildConfiguration) : String :=
  match sectionEntries bc with
  | [] => "\x7b\x7d"
  | secs =>
    "\x7b\n" ++
      String.intercalate ",\n"
        (secs.map (fun kv => "  " ++ jsonQuote kv.1 ++ ": " ++ renderMapObject "  " kv.2)) ++
      "\n\x7d"

/-- `strings.HasPrefix(keystoreURL, "file://")` (src/main.go line 158 / 340),
on the character list of the string. -/
def hasFileScheme (s : String) : Bool := s.data.take 7 == "file://".data

/-- `strings.TrimPrefix(keystoreURL, "file://")` (src/main.go line 159 / 341). -/
def stripFileScheme (s : String) : String :=
  if hasFileScheme s then String.mk (s.data.drop 7) else s

/-- `path.Join` / `filepath.Join` on a normalized directory (the temp dir
returned by `pathutil.NormalizedOSTempDirPath` is absolute with no trailing
slash, so joining is plain concatenation). -/
def pathJoin (dir file : String) : String := dir ++ "/" ++ file

/-- An HTTP response as seen by `http.Get`: a status code and a body. -/
structure HTTPResponse where
  statusCode : Nat
  body : List Nat
deriving DecidableEq, Repr

/-- Result of one run: process exit 0 (`success`) or `os.Exit(1)` via `fail`
with the logged error line (`failure`). -/
inductive RunResult where
  | success
  | failure (msg : String)
deriving DecidableEq, Repr

/-- Externally visible I/O events a run can perform, in order. -/
inductive Event where
  | mkTmpDir (dir : String)
  | fileCreate (pth : String)
  | netGet (url : String)
  | fileWrite (pth : String) (content : String)
  | display (s : String)
  | displayContent (s : String)
  | envmanAdd (key : String) (value : String)
deriving DecidableEq, Repr

def Event.isNetGet : Event → Bool
  | Event.netGet _ => true
  | _ => false

def Event.isDisplay : Event → Bool
  | Event.display _ => true
  | Event.displayContent _ => true
  | _ => false

def Event.fileWriteContent : Event → Option (String × String)
  | Event.fileWrite p s => some (p, s)
  | _ => none

def Event.contentOf : Event → Option String
  | Event.displayContent s => some s
  | _ => none

def Event.envmanValue : Event → Option (String × String)
  | Event.envmanAdd k v => some (k, v)
  | _ => none

/-- The external world a run interacts with: outcome of temp-dir creation
(`pathutil.NormalizedOSTempDirPath`), of path absolutization
(`pathutil.AbsPath`), of `http.Get`, of `os.Create`, of `io.Copy`'s write
side, of `fileutil.WriteBytesToFile`, and of the `envman` handoff. -/
structure World where
  tmpDirResult : Except String String
  wdAbsPath : String → Except String String
  httpGet : String → Except String HTTPResponse
  createFileErr : String → Option String
  copyErr : Option String
  writeFileErr : String → Option String
  envmanErr : Option String

/-- Result of `download(url, pth)` (src/main.go lines 102-122): `os.Create`
(its error is never checked; a failed create surfaces later as `io.Copy`
hitting an invalid file handle), then `http.Get` — whose error aborts — then
`io.Copy` of the body.  The response's status code is never inspected. -/
def downloadResult (w : World) (url pth : String) : Except String Unit :=
  match w.httpGet url with
  | Except.error e => Except.error e
  | Except.ok _resp =>
    match w.createFileErr pth with
    | some _ => Except.error "invalid argument"
    | none =>
      match w.copyErr with
      | some e => Except.error e
      | none => Except.ok ()

/-- The I/O events `download` performs: it creates/truncates the target file
and issues exactly one GET, with no retry. -/
def downloadEvents (url pth : String) : List Event :=
  [Event.fileCreate pth, Event.netGet url]

/-- Keystore resolution for a non-empty `keystore_url`
(src/main.go lines 157-172 / 339-354): `file://` references are prefix-stripped
and absolutized, anything else is downloaded to `<tmpDir>/keystore.jks`. -/
def resolveKeystoreResult (c : ConfigsModel) (w : World) (tmpDir : String) : Except String String :=
  if hasFileScheme c.KeystoreURL then
    match w.wdAbsPath (stripFileScheme c.KeystoreURL) with
    | Except.error e =>
      Except.error ("Failed to expand path (" ++ stripFileScheme c.KeystoreURL ++ "), error: " ++ e)
    | Except.ok absPth => Except.ok absPth
  else
    match downloadResult w c.KeystoreURL (pathJoin tmpDir "keystore.jks") with
    | Except.error e => Except.error ("Failed to download keystore, error: " ++ e)
    | Except.ok _ => Except.ok (pathJoin tmpDir "keystore.jks")

/-- Events of keystore resolution: the `file://` branch performs no I/O. -/
def resolveKeystoreEvents (c : ConfigsModel) (tmpDir : String) : List Event :=
  if hasFileScheme c.KeystoreURL then []
  else downloadEvents c.KeystoreURL (pathJoin tmpDir "keystore.jks")

/-- The android branch guard (src/main.go line 153 / 336): resolution happens
only when `keystore_url` is non-empty; otherwise the keystore path stays "". -/
def androidStepResult (c : ConfigsModel) (w : World) (tmpDir : String) : Except String String :=
  if c.KeystoreURL = "" then Except.ok ""
  else resolveKeystoreResult c w tmpDir

def androidStepEvents (c : ConfigsModel) (tmpDir : String) : List Event :=
  if c.KeystoreURL = "" then []
  else resolveKeystoreEvents c tmpDir

/-- Document assembly (src/main.go lines 153-201 / 336-382): the android map
is a singleton under the configuration name iff `keystore_url` is non-empty;
the ios map is a singleton under the configuration name iff `package_type` is
not `none`. -/
def assembleBuildConfig (c : ConfigsModel) (keystorePath : String) : BuildConfiguration :=
  { Android :=
      if c.KeystoreURL = "" then none
      else some [(c.Configuration,
        { Keystore := keystorePath
          StorePassword := c.KeystorePassword
          Alias := c.KeystoreAlias
          Password := c.PrivateKeyPassword })],
    IOS :=
      if c.PackageType = "none" then none
      else some [(c.Configuration,
        { CodeSignIdentity := c.CodeSignIdentity
          ProvisioningProfile := c.ProvisioningProfile
          DevelopmentTeam := c.DevelopmentTeam
          PackageType := c.PackageType })] }

/-- `len(buildConfig.Android) == 0 && len(buildConfig.IOS) == 0`
(src/main.go line 203 / 384). -/
def emptyDoc (bc : BuildConfiguration) : Bool :=
  ((bc.Android.getD []).length == 0) && ((bc.IOS.getD []).length == 0)

/-- The redaction block of the stepconf variant (src/main.go lines 398-419):
if the android map has an entry under the configuration name, mask its
non-empty `Password` and `StorePassword` with five asterisks and write the
entry back; otherwise the document is left as is. -/
def redactBuildConfig (c : ConfigsModel) (bc : BuildConfiguration) : BuildConfiguration :=
  match lookupKey c.Configuration (bc.Android.getD []) with
  | none => bc
  | some item =>
    let item1 := if item.Password = "" then item else { item with Password := "*****" }
    let item2 := if item1.StorePassword = "" then item1 else { item1 with StorePassword := "*****" }
    { bc with Android := some (updateKey c.Configuration item2 (bc.Android.getD [])) }

/-- `configs.print()` of the first variant (src/main.go lines 51-66): the raw
input values, secrets included, on the log. -/
def printConfigsText (c : ConfigsModel) : String :=
  "- Configuration: " ++ c.Configuration ++
  "\n- DevelopmentTeam: " ++ c.DevelopmentTeam ++
  "\n- CodeSignIdentity: " ++ c.CodeSignIdentity ++
  "\n- ProvisioningProfile: " ++ c.ProvisioningProfile ++
  "\n- PackageType: " ++ c.PackageType ++
  "\n- KeystoreURL: " ++ c.KeystoreURL ++
  "\n- KeystorePassword: " ++ c.KeystorePassword ++
  "\n- KeystoreAlias: " ++ c.KeystoreAlias ++
  "\n- PrivateKeyPassword: " ++ c.PrivateKeyPassword

/-- `stepconf.Print(configs)` of the second variant (src/main.go line 324):
`stepconf.Secret` fields render masked. -/
def printConfigsTextV2 (c : ConfigsModel) : String :=
  "- Configuration: " ++ c.Configuration ++
  "\n- DevelopmentTeam: " ++ c.DevelopmentTeam ++
  "\n- CodeSignIdentity: " ++ c.CodeSignIdentity ++
  "\n- ProvisioningProfile: " ++ c.ProvisioningProfile ++
  "\n- PackageType: " ++ c.PackageType ++
  "\n- KeystoreURL: " ++ c.KeystoreURL ++
  "\n- KeystorePassword: *****" ++
  "\n- KeystoreAlias: " ++ c.KeystoreAlias ++
  "\n- PrivateKeyPassword: *****"

/-- Outcome of a run: exit status, ordered I/O event trace, and (when the
pipeline reached document generation) the assembled document. -/
structure RunOutput where
  result : RunResult
  events : List Event
  document : Option BuildConfiguration
deriving Repr

/-- Tail of the first variant after assembly (src/main.go lines 203-228):
empty-document short-circuit, marshal, unredacted content display, write of
`build.json`, envman handoff. -/
def finishV1 (c : ConfigsModel) (w : World) (tmpDir : String) (bc : BuildConfiguration)
    (evs : List Event) : RunOutput :=
  if emptyDoc bc then
    { result := RunResult.success,
      events := evs ++ [Event.display "No ios nor android build config parameters specified, nothing to generate..."],
      document := some bc }
  else
    let bytes := marshalIndentBuildConfiguration bc
    let evs2 := evs ++ [Event.display "content:", Event.displayContent bytes]
    let pth := pathJoin tmpDir "build.json"
    match w.writeFileErr pth with
    | some e =>
      { result := RunResult.failure ("Failed to write build.json file, error: " ++ e),
        events := evs2, document := some bc }
    | none =>
      let evs3 := evs2 ++ [Event.fileWrite pth bytes]
      match w.envmanErr with
      | some e =>
        { result := RunResult.failure ("Failed to export BITRISE_CORDOVA_BUILD_CONFIGURATION, error: " ++ e),
          events := evs3, document := some bc }
      | none =>
        { result := RunResult.success,
          events := evs3 ++ [Event.envmanAdd "BITRISE_CORDOVA_BUILD_CONFIGURATION" pth],
          document := some bc }

/-- Tail of the second variant after assembly (src/main.go lines 384-429):
identical to `finishV1` except that the displayed copy is re-marshalled from
the redacted document when the android entry exists, while the persisted bytes
are the ones marshalled before redaction. -/
def finishV2 (c : ConfigsModel) (w : World) (tmpDir : String) (bc : BuildConfiguration)
    (evs : List Event) : RunOutput :=
  if emptyDoc bc then
    { result := RunResult.success,
      events := evs ++ [Event.display "No ios nor android build config parameters specified, nothing to generate..."],
      document := some bc }
  else
    let bytes := marshalIndentBuildConfiguration bc
    let printable :=
      match lookupKey c.Configuration (bc.Android.getD []) with
      | some _ => marshalIndentBuildConfiguration (redactBuildConfig c bc)
      | none => bytes
    let evs2 := evs ++ [Event.display "content:", Event.displayContent printable]
    let pth := pathJoin tmpDir "build.json"
    match w.writeFileErr pth with
    | some e =>
      { result := RunResult.failure ("Failed to write build.json file, error: " ++ e),
        events := evs2, document := some bc }
    | none =>
      let evs3 := evs2 ++ [Event.fileWrite pth bytes]
      match w.envmanErr with
      | some e =>
        { result := RunResult.failure ("Failed to export BITRISE_CORDOVA_BUILD_CONFIGURATION, error: " ++ e),
          events := evs3, document := some bc }
      | none =>
        { result := RunResult.success,
          events := evs3 ++ [Event.envmanAdd "BITRISE_CORDOVA_BUILD_CONFIGURATION" pth],
          document := some bc }

/-- The first variant's `main` (src/main.go lines 135-229): print configs,
validate, create the scratch dir, resolve the keystore when requested,
assemble, then `finishV1`. -/
def runV1 (c : ConfigsModel) (w : World) : RunOutput :=
  let evs0 := [Event.display (printConfigsText c)]
  match c.validate with
  | Except.error e =>
    { result := RunResult.failure ("Issue with input: " ++ e), events := evs0, document := none }
  | Except.ok _ =>
    match w.tmpDirResult with
    | Except.error e =>
      { result := RunResult.failure ("Failed to create tmp dir, error: " ++ e),
        events := evs0, document := none }
    | Except.ok tmpDir =>
      let evs1 := evs0 ++ [Event.mkTmpDir tmpDir]
      match androidStepResult c w tmpDir with
      | Except.error e =>
        { result := RunResult.failure e,
          events := evs1 ++ androidStepEvents c tmpDir, document := none }
      | Except.ok ksPath =>
        finishV1 c w tmpDir (assembleBuildConfig c ksPath) (evs1 ++ androidStepEvents c tmpDir)

/-- The second variant's `main` (src/main.go lines 319-429): `stepconf.Parse`
(which only requires `configuration` to be non-empty), masked config print,
scratch dir, keystore resolution, assembly, then `finishV2`. -/
def runV2 (c : ConfigsModel) (w : World) : RunOutput :=
  if c.Configuration = "" then
    { result := RunResult.failure "Couldn't create config: configuration input is required",
      events := [], document := none }
  else
    let evs0 := [Event.display (printConfigsTextV2 c)]
    match w.tmpDirResult with
    | Except.error e =>
      { result := RunResult.failure ("Failed to create tmp dir, error: " ++ e),
        events := evs0, document := none }
    | Except.ok tmpDir =>
      let evs1 := evs0 ++ [Event.mkTmpDir tmpDir]
      match androidStepResult c w tmpDir with
      | Except.error e =>
        { result := RunResult.failure e,
          events := evs1 ++ androidStepEvents c tmpDir, document := none }
      | Except.ok ksPath =>
        finishV2 c w tmpDir (assembleBuildConfig c ksPath) (evs1 ++ androidStepEvents c tmpDir)

/-- The `(path, content)` pairs written by `fileutil.WriteBytesToFile` during
a run. -/
def writtenFiles (out : RunOutput) : List (String × String) :=
  out.events.filterMap Event.fileWriteContent

/-- The content of the first `build.json` write of a run, if any. -/
def writtenJson (out : RunOutput) : Option String :=
  (writtenFiles out).head?.map Prod.snd

/-- The `(key, value)` pairs handed off through envman during a run. -/
def publishedValues (out : RunOutput) : List (String × String) :=
  out.events.filterMap Event.envmanValue

/-- The human-readable rendering of the assembled document (the log line
following `content:`), if the run displayed one. -/
def displayedJson (out : RunOutput) : Option String :=
  (out.events.filterMap Event.contentOf).head?

/-- A world identical to `w` except that scratch-dir creation yields `d`
(used to compare two runs into distinct scratch directories). -/
def withTmp (w : World) (d : String) : World :=
  { w with tmpDirResult := Except.ok d }

/-- The keystore path a successful run resolves, as a pure function of the
inputs, the absolutization oracle and the scratch directory. -/
def keystorePathPure (c : ConfigsModel) (w : World) (d : String) : String :=
  if c.KeystoreURL = "" then ""
  else if hasFileScheme c.KeystoreURL then
    match w.wdAbsPath (stripFileScheme c.KeystoreURL) with
    | Except.ok a => a
    | Except.error _ => ""
  else pathJoin d "keystore.jks"

/-- The `build.json` bytes a successful run serializes, as a pure function of
the inputs, the absolutization oracle and the scratch directory. -/
def buildJsonOf (c : ConfigsModel) (w : World) (d : String) : String :=
  marshalIndentBuildConfiguration (assembleBuildConfig c (keystorePathPure c w d))

/-- The four android JSON fields before `omitempty` filtering, in struct
order. -/
def allAndroidFields (it : AndroidBuildConfigurationItem) : List (String × String) :=
  [("keystore", it.Keystore), ("storePassword", it.StorePassword),
   ("alias", it.Alias), ("password", it.Password)]

/-- The four ios JSON fields before `omitempty` filtering, in struct order. -/
def allIOSFields (it : IOSBuildConfigurationItem) : List (String × String) :=
  [("codeSignIdentity", it.CodeSignIdentity), ("provisioningProfile", it.ProvisioningProfile),
   ("developmentTeam", it.DevelopmentTeam), ("packageType", it.PackageType)]

/-- A well-behaved sample world for concrete runs: scratch dir `/tmp/scratch`,
absolutization prepends the working directory `/root`, HTTP succeeds with
status 200, and all writes and the handoff succeed. -/
def sampleWorld : World :=
  { tmpDirResult := Except.ok "/tmp/scratch"
    wdAbsPath := fun p => if p = "" then Except.error "No Path provided" else Except.ok ("/root" ++ p)
    httpGet := fun _ => Except.ok { statusCode := 200, body := [1, 2, 3] }
    createFileErr := fun _ => none
    copyErr := none
    writeFileErr := fun _ => none
    envmanErr := none }

/-- A world whose HTTP server answers every GET with status 404 and an error
page as body. -/
def statusFailWorld : World :=
  { sampleWorld with
    httpGet := fun _ => Except.ok { statusCode := 404, body := [60, 104, 116, 109, 108, 62] } }

/-- A fully populated valid input set with a `file://` keystore reference. -/
def cW : ConfigsModel :=
  { Configuration := "release", DevelopmentTeam := "T", CodeSignIdentity := "I",
    ProvisioningProfile := "P", PackageType := "development",
    KeystoreURL := "file:///tmp/a.jks", KeystorePassword := "spw",
    KeystoreAlias := "al", PrivateKeyPassword := "kpw" }

/-- The same inputs with a remote keystore URL. -/
def cRemote : ConfigsModel :=
  { cW with KeystoreURL := "https://example.com/k.jks" }

/-- Inputs with an out-of-range `configuration` value. -/
def c3Bad : ConfigsModel :=
  { cW with Configuration := "banana" }

/-- Inputs with empty `configuration`, empty `keystore_url` and
`package_type` `none`. -/
def c4Bad : ConfigsModel :=
  { cW with Configuration := "", KeystoreURL := "", PackageType := "none" }

/-- Valid inputs with empty `keystore_url` and `package_type` `none`. -/
def c4Good : ConfigsModel :=
  { cW with KeystoreURL := "", PackageType := "none" }

/-- Inputs with an out-of-range `package_type` value. -/
def c6Bad : ConfigsModel :=
  { cW with PackageType := "simulator" }

/-- The document the sample `file://` run assembles. -/
def cwDoc : BuildConfiguration := assembleBuildConfig cW "/root/tmp/a.jks"

/-- The redacted rendering the sample stepconf-variant run displays. -/
def cwDispStr : String := marshalIndentBuildConfiguration (redactBuildConfig cW cwDoc)

/-- The unredacted `build.json` bytes of the sample run. -/
def cwBuildJson : String := marshalIndentBuildConfiguration cwDoc

/-- The `build.json` bytes of the sample run into scratch dir `/tmp/s1`. -/
def cwJson1 : String := buildJsonOf cW sampleWorld "/tmp/s1"

/-- The `build.json` bytes of the sample run into scratch dir `/tmp/s2`. -/
def cwJson2 : String := buildJsonOf cW sampleWorld "/tmp/s2"

lemma validateWithOptions_ok_iff (v : String) (o : List String) :
    validateWithOptions v o = Except.ok () ↔ (v ≠ "" ∧ v ∈ o) := by
  unfold validateWithOptions
  split_ifs with h1 h2 <;> simp_all

lemma ConfigsModel.validate_ok_split (c : ConfigsModel) :
    c.validate = Except.ok () ↔
      (validateWithOptions c.Configuration configurationOptions = Except.ok () ∧
       validateWithOptions c.PackageType packageTypeOptions = Except.ok ()) := by
  unfold ConfigsModel.validate
  cases h1 : validateWithOptions c.Configuration configurationOptions with
  | error e => simp [h1]
  | ok u =>
    cases u
    cases h2 : validateWithOptions c.PackageType packageTypeOptions with
    | error e => simp [h2]
    | ok u2 => cases u2; simp

lemma mem_configurationOptions_ne_empty : ∀ v ∈ configurationOptions, v ≠ "" := by decide

lemma mem_packageTypeOptions_ne_empty : ∀ v ∈ packageTypeOptions, v ≠ "" := by decide

lemma ConfigsModel.validate_ok_iff (c : ConfigsModel) :
    c.validate = Except.ok () ↔
      (c.Configuration ∈ configurationOptions ∧ c.PackageType ∈ packageTypeOptions) := by
  rw [ConfigsModel.validate_ok_split, validateWithOptions_ok_iff, validateWithOptions_ok_iff]
  constructor
  · rintro ⟨⟨_, h1⟩, _, h2⟩
    exact ⟨h1, h2⟩
  · rintro ⟨h1, h2⟩
    exact ⟨⟨mem_configurationOptions_ne_empty _ h1, h1⟩,
           mem_packageTypeOptions_ne_empty _ h2, h2⟩

lemma ConfigsModel.validate_error (c : ConfigsModel) (h : c.validate ≠ Except.ok ()) :
    ∃ e, c.validate = Except.error e := by
  cases hv : c.validate with
  | error e => exact ⟨e, rfl⟩
  | ok u => cases u; exact absurd hv h

lemma hasFileScheme_ne_empty (s : String) (h : hasFileScheme s = true) : s ≠ "" := by
  intro hs
  subst hs
  simp [hasFileScheme] at h

lemma pathJoin_ne_empty (d f : String) : pathJoin d f ≠ "" := by
  intro h
  have h2 := congrArg String.length h
  rw [pathJoin, String.length_append, String.length_append] at h2
  rw [show ("/" : String).length = 1 from rfl, String.length_empty] at h2
  omega

lemma finishV1_document (c : ConfigsModel) (w : World) (d : String) (bc : BuildConfiguration)
    (evs : List Event) : (finishV1 c w d bc evs).document = some bc := by
  unfold finishV1
  split
  · rfl
  · simp only []
    split
    · rfl
    · split <;> rfl

lemma finishV2_document (c : ConfigsModel) (w : World) (d : String) (bc : BuildConfiguration)
    (evs : List Event) : (finishV2 c w d bc evs).document = some bc := by
  unfold finishV2
  split
  · rfl
  · simp only []
    split
    · rfl
    · split <;> rfl

lemma androidStepEvents_fileWrite (c : ConfigsModel) (d : String) :
    (androidStepEvents c d).filterMap Event.fileWriteContent = [] := by
  unfold androidStepEvents resolveKeystoreEvents downloadEvents
  split_ifs <;> rfl

lemma androidStepEvents_contentOf (c : ConfigsModel) (d : String) :
    (androidStepEvents c d).filterMap Event.contentOf = [] := by
  unfold androidStepEvents resolveKeystoreEvents downloadEvents
  split_ifs <;> rfl

lemma androidStepEvents_of_scheme (c : ConfigsModel) (d : String)
    (h : hasFileScheme c.KeystoreURL = true) : androidStepEvents c d = [] := by
  unfold androidStepEvents resolveKeystoreEvents
  split_ifs <;> simp_all

lemma androidStepResult_ok (c : ConfigsModel) (w : World) (d ks : String)
    (h : androidStepResult c w d = Except.ok ks) : ks = keystorePathPure c w d := by
  unfold androidStepResult resolveKeystoreResult at h
  unfold keystorePathPure
  split_ifs at h ⊢ with h1 h2
  · cases h
    rfl
  · cases habs : w.wdAbsPath (stripFileScheme c.KeystoreURL) with
    | error e => rw [habs] at h; cases h
    | ok a => rw [habs] at h; cases h; rfl
  · cases hdl : downloadResult w c.KeystoreURL (pathJoin d "keystore.jks") with
    | error e => rw [hdl] at h; cases h
    | ok u => rw [hdl] at h; cases h; rfl

lemma runV1_ok_eq (c : ConfigsModel) (w : World) (d ks : String)
    (hv : c.validate = Except.ok ()) (hd : w.tmpDirResult = Except.ok d)
    (hks : androidStepResult c w d = Except.ok ks) :
    runV1 c w =
      finishV1 c w d (assembleBuildConfig c ks)
        ([Event.display (printConfigsText c), Event.mkTmpDir d] ++ androidStepEvents c d) := by
  unfold runV1
  simp [hv, hd, hks]

lemma runV2_ok_eq (c : ConfigsModel) (w : World) (d ks : String)
    (hc : ¬ c.Configuration = "") (hd : w.tmpDirResult = Except.ok d)
    (hks : androidStepResult c w d = Except.ok ks) :
    runV2 c w =
      finishV2 c w d (assembleBuildConfig c ks)
        ([Event.display (printConfigsTextV2 c), Event.mkTmpDir d] ++ androidStepEvents c d) := by
  unfold runV2
  simp [hc, hd, hks]

lemma runV1_document_char (c : ConfigsModel) (w : World) (bc : BuildConfiguration)
    (h : (runV1 c w).document = some bc) :
    ∃ d ks, w.tmpDirResult = Except.ok d ∧ androidStepResult c w d = Except.ok ks ∧
      bc = assembleBuildConfig c ks := by
  unfold runV1 at h
  cases hv : c.validate with
  | error e => simp [hv] at h
  | ok u =>
    cases u
    cases hd : w.tmpDirResult with
    | error e => simp [hv, hd] at h
    | ok d =>
      cases hks : androidStepResult c w d with
      | error e => simp [hv, hd, hks] at h
      | ok ks =>
        simp [hv, hd, hks, finishV1_document] at h
        exact ⟨d, ks, rfl, hks, h.symm⟩

lemma runV2_document_char (c : ConfigsModel) (w : World) (bc : BuildConfiguration)
    (h : (runV2 c w).document = some bc) :
    ∃ d ks, w.tmpDirResult = Except.ok d ∧ androidStepResult c w d = Except.ok ks ∧
      bc = assembleBuildConfig c ks := by
  unfold runV2 at h
  by_cases hc : c.Configuration = ""
  · simp [hc] at h
  · cases hd : w.tmpDirResult with
    | error e => simp [hc, hd] at h
    | ok d =>
      cases hks : androidStepResult c w d with
      | error e => simp [hc, hd, hks] at h
      | ok ks =>
        simp [hc, hd, hks, finishV2_document] at h
        exact ⟨d, ks, rfl, hks, h.symm⟩

lemma writtenJson_finishV1_char (c : ConfigsModel) (w : World) (d : String)
    (bc : BuildConfiguration) (evs : List Event)
    (hevs : evs.filterMap Event.fileWriteContent = []) (s : String)
    (h : writtenJson (finishV1 c w d bc evs) = some s) :
    s = marshalIndentBuildConfiguration bc := by
  unfold finishV1 at h
  cases he : emptyDoc bc with
  | true =>
    simp [he, writtenJson, writtenFiles, List.filterMap_append, hevs, Event.fileWriteContent] at h
  | false =>
    cases hw : w.writeFileErr (pathJoin d "build.json") with
    | some e =>
      simp [he, hw, writtenJson, writtenFiles, List.filterMap_append, hevs,
        Event.fileWriteContent] at h
    | none =>
      cases hm : w.envmanErr with
      | some e =>
        simp [he, hw, hm, writtenJson, writtenFiles, List.filterMap_append, hevs,
          Event.fileWriteContent] at h
        exact h.symm
      | none =>
        simp [he, hw, hm, writtenJson, writtenFiles, List.filterMap_append, hevs,
          Event.fileWriteContent] at h
        exact h.symm

lemma writtenJson_finishV2_char (c : ConfigsModel) (w : World) (d : String)
    (bc : BuildConfiguration) (evs : List Event)
    (hevs : evs.filterMap Event.fileWriteContent = []) (s : String)
    (h : writtenJson (finishV2 c w d bc evs) = some s) :
    s = marshalIndentBuildConfiguration bc := by
  unfold finishV2 at h
  cases he : emptyDoc bc with
  | true =>
    simp [he, writtenJson, writtenFiles, List.filterMap_append, hevs, Event.fileWriteContent] at h
  | false =>
    cases hw : w.writeFileErr (pathJoin d "build.json") with
    | some e =>
      simp [he, hw, writtenJson, writtenFiles, List.filterMap_append, hevs,
        Event.fileWriteContent] at h
    | none =>
      cases hm : w.envmanErr with
      | some e =>
        simp [he, hw, hm, writtenJson, writtenFiles, List.filterMap_append, hevs,
          Event.fileWriteContent] at h
        exact h.symm
      | none =>
        simp [he, hw, hm, writtenJson, writtenFiles, List.filterMap_append, hevs,
          Event.fileWriteContent] at h
        exact h.symm

lemma redact_none (c : ConfigsModel) (bc : BuildConfiguration)
    (h : lookupKey c.Configuration (bc.Android.getD []) = none) :
    redactBuildConfig c bc = bc := by
  unfold redactBuildConfig
  rw [h]

lemma displayedJson_finishV2_char (c : ConfigsModel) (w : World) (d : String)
    (bc : BuildConfiguration) (evs : List Event)
    (hevs : evs.filterMap Event.contentOf = []) (s : String)
    (h : displayedJson (finishV2 c w d bc evs) = some s) :
    s = marshalIndentBuildConfiguration (redactBuildConfig c bc) := by
  unfold finishV2 at h
  cases he : emptyDoc bc with
  | true =>
    simp [he, displayedJson, List.filterMap_append, hevs, Event.contentOf] at h
  | false =>
    cases hl : lookupKey c.Configuration (bc.Android.getD []) with
    | none =>
      rw [redact_none c bc hl]
      cases hw : w.writeFileErr (pathJoin d "build.json") with
      | some e =>
        simp [he, hl, hw, displayedJson, List.filterMap_append, hevs, Event.contentOf] at h
        exact h.symm
      | none =>
        cases hm : w.envmanErr with
        | some e =>
          simp [he, hl, hw, hm, displayedJson, List.filterMap_append, hevs, Event.contentOf] at h
          exact h.symm
        | none =>
          simp [he, hl, hw, hm, displayedJson, List.filterMap_append, hevs, Event.contentOf] at h
          exact h.symm
    | some it =>
      cases hw : w.writeFileErr (pathJoin d "build.json") with
      | some e =>
        simp [he, hl, hw, displayedJson, List.filterMap_append, hevs, Event.contentOf] at h
        exact h.symm
      | none =>
        cases hm : w.envmanErr with
        | some e =>
          simp [he, hl, hw, hm, displayedJson, List.filterMap_append, hevs, Event.contentOf] at h
          exact h.symm
        | none =>
          simp [he, hl, hw, hm, displayedJson, List.filterMap_append, hevs, Event.contentOf] at h
          exact h.symm

lemma finishV1_events_filter_netGet (c : ConfigsModel) (w : World) (d : String)
    (bc : BuildConfiguration) (evs : List Event) :
    (finishV1 c w d bc evs).events.filter Event.isNetGet = evs.filter Event.isNetGet := by
  unfold finishV1
  cases he : emptyDoc bc with
  | true => simp [List.filter_append, Event.isNetGet, List.filter]
  | false =>
    cases hw : w.writeFileErr (pathJoin d "build.json") with
    | some e => simp [hw, List.filter_append, Event.isNetGet, List.filter]
    | none =>
      cases hm : w.envmanErr with
      | some e => simp [hw, hm, List.filter_append, Event.isNetGet, List.filter]
      | none => simp [hw, hm, List.filter_append, Event.isNetGet, List.filter]

lemma writtenJson_runV1_char (c : ConfigsModel) (w : World) (s : String)
    (h : writtenJson (runV1 c w) = some s) :
    ∃ d ks, w.tmpDirResult = Except.ok d ∧ androidStepResult c w d = Except.ok ks ∧
      s = marshalIndentBuildConfiguration (assembleBuildConfig c ks) := by
  unfold runV1 at h
  cases hv : c.validate with
  | error e => simp [hv, writtenJson, writtenFiles, Event.fileWriteContent] at h
  | ok u =>
    cases u
    cases hd : w.tmpDirResult with
    | error e => simp [hv, hd, writtenJson, writtenFiles, Event.fileWriteContent] at h
    | ok d =>
      cases hks : androidStepResult c w d with
      | error e =>
        simp [hv, hd, hks, writtenJson, writtenFiles, List.filterMap_append,
          androidStepEvents_fileWrite, Event.fileWriteContent] at h
      | ok ks =>
        simp only [hv, hd, hks] at h
        refine ⟨d, ks, rfl, hks,
          writtenJson_finishV1_char c w d _ _ ?_ s h⟩
        simp [List.filterMap_append, androidStepEvents_fileWrite, Event.fileWriteContent]

lemma writtenJson_runV2_char (c : ConfigsModel) (w : World) (s : String)
    (h : writtenJson (runV2 c w) = some s) :
    ∃ d ks, w.tmpDirResult = Except.ok d ∧ androidStepResult c w d = Except.ok ks ∧
      s = marshalIndentBuildConfiguration (assembleBuildConfig c ks) ∧
      (runV2 c w).document = some (assembleBuildConfig c ks) := by
  unfold runV2 at h
  by_cases hc : c.Configuration = ""
  · simp [hc, writtenJson, writtenFiles, Event.fileWriteContent] at h
  · cases hd : w.tmpDirResult with
    | error e => simp [hc, hd, writtenJson, writtenFiles, Event.fileWriteContent] at h
    | ok d =>
      cases hks : androidStepResult c w d with
      | error e =>
        simp [hc, hd, hks, writtenJson, writtenFiles, List.filterMap_append,
          androidStepEvents_fileWrite, Event.fileWriteContent] at h
      | ok ks =>
        rw [if_neg hc] at h
        simp only [hd, hks] at h
        refine ⟨d, ks, rfl, hks,
          writtenJson_finishV2_char c w d _ _ ?_ s h, ?_⟩
        · simp [List.filterMap_append, androidStepEvents_fileWrite, Event.fileWriteContent]
        · rw [runV2_ok_eq c w d ks hc hd hks]
          exact finishV2_document c w d _ _

lemma displayedJson_runV2_char (c : ConfigsModel) (w : World) (s : String)
    (h : displayedJson (runV2 c w) = some s) :
    ∃ d ks, w.tmpDirResult = Except.ok d ∧ androidStepResult c w d = Except.ok ks ∧
      s = marshalIndentBuildConfiguration (redactBuildConfig c (assembleBuildConfig c ks)) ∧
      (runV2 c w).document = some (assembleBuildConfig c ks) := by
  unfold runV2 at h
  by_cases hc : c.Configuration = ""
  · simp [hc, displayedJson, Event.contentOf] at h
  · cases hd : w.tmpDirResult with
    | error e => simp [hc, hd, displayedJson, Event.contentOf] at h
    | ok d =>
      cases hks : androidStepResult c w d with
      | error e =>
        simp [hc, hd, hks, displayedJson, List.filterMap_append,
          androidStepEvents_contentOf, Event.contentOf] at h
      | ok ks =>
        rw [if_neg hc] at h
        simp only [hd, hks] at h
        refine ⟨d, ks, rfl, hks,
          displayedJson_finishV2_char c w d _ _ ?_ s h, ?_⟩
        · simp [List.filterMap_append, androidStepEvents_contentOf, Event.contentOf]
        · rw [runV2_ok_eq c w d ks hc hd hks]
          exact finishV2_document c w d _ _

lemma runV1_netGet_of_scheme (c : ConfigsModel) (w : World)
    (h : hasFileScheme c.KeystoreURL = true) :
    (runV1 c w).events.filter Event.isNetGet = [] := by
  unfold runV1
  cases hv : c.validate with
  | error e => simp [Event.isNetGet, List.filter]
  | ok u =>
    cases u
    cases hd : w.tmpDirResult with
    | error e => simp [Event.isNetGet, List.filter]
    | ok d =>
      cases hks : androidStepResult c w d with
      | error e =>
        simp [hks, List.filter_append, Event.isNetGet, List.filter,
          androidStepEvents_of_scheme c d h]
      | ok ks =>
        simp [hks, finishV1_events_filter_netGet, List.filter_append, Event.isNetGet,
          List.filter, androidStepEvents_of_scheme c d h]

lemma assemble_Android_char (c : ConfigsModel) (ks : String)
    (m : List (String × AndroidBuildConfigurationItem))
    (h : (assembleBuildConfig c ks).Android = some m) :
    ¬ c.KeystoreURL = "" ∧
      m = [(c.Configuration,
        { Keystore := ks, StorePassword := c.KeystorePassword,
          Alias := c.KeystoreAlias, Password := c.PrivateKeyPassword })] := by
  unfold assembleBuildConfig at h
  by_cases hk : c.KeystoreURL = ""
  · simp [hk] at h
  · simp [hk] at h
    exact ⟨hk, h.symm⟩

lemma assemble_Android_none_iff (c : ConfigsModel) (ks : String) :
    (assembleBuildConfig c ks).Android = none ↔ c.KeystoreURL = "" := by
  unfold assembleBuildConfig
  by_cases hk : c.KeystoreURL = "" <;> simp [hk]

lemma assemble_IOS_none_iff (c : ConfigsModel) (ks : String) :
    (assembleBuildConfig c ks).IOS = none ↔ c.PackageType = "none" := by
  unfold assembleBuildConfig
  by_cases hp : c.PackageType = "none" <;> simp [hp]

lemma redact_assembled_fields (c : ConfigsModel) (ks : String) (h : ¬ c.KeystoreURL = "") :
    (redactBuildConfig c (assembleBuildConfig c ks)).Android =
      some [(c.Configuration,
        { Keystore := ks,
          StorePassword := if c.KeystorePassword = "" then c.KeystorePassword else "*****",
          Alias := c.KeystoreAlias,
          Password := if c.PrivateKeyPassword = "" then c.PrivateKeyPassword else "*****" })] := by
  by_cases hp : c.PrivateKeyPassword = "" <;> by_cases hsp : c.KeystorePassword = "" <;>
    simp [redactBuildConfig, assembleBuildConfig, lookupKey, updateKey, h, hp, hsp]

lemma keystorePathPure_local (c : ConfigsModel) (w : World) (d1 d2 : String)
    (h : hasFileScheme c.KeystoreURL = true ∨ c.KeystoreURL = "") :
    keystorePathPure c w d1 = keystorePathPure c w d2 := by
  unfold keystorePathPure
  rcases h with h | h
  · simp [h, hasFileScheme_ne_empty c.KeystoreURL h]
  · simp [h]

/-- C3: validation accepts exactly the runs whose `configuration` is one of
release/debug and whose `package_type` is one of the five allowed values; for
any other value of either field the run fails with a non-zero exit
(InvalidInput). -/
theorem c3_validation_exact (c : ConfigsModel) (w : World) :
    (c.validate = Except.ok () ↔
      (c.Configuration ∈ configurationOptions ∧ c.PackageType ∈ packageTypeOptions)) ∧
    (¬ (c.Configuration ∈ configurationOptions ∧ c.PackageType ∈ packageTypeOptions) →
      ∃ m, (runV1 c w).result = RunResult.failure m) := by
  constructor
  · exact ConfigsModel.validate_ok_iff c
  · intro hbad
    have hne : c.validate ≠ Except.ok () := fun h => hbad ((ConfigsModel.validate_ok_iff c).mp h)
    obtain ⟨e, he⟩ := ConfigsModel.validate_error c hne
    refine ⟨"Issue with input: " ++ e, ?_⟩
    unfold runV1
    simp [he]

/-- C3 witness: the out-of-range configuration value "banana" is rejected with
a failing run. -/
theorem c3_validation_exact_witness :
    ¬ (c3Bad.Configuration ∈ configurationOptions ∧ c3Bad.PackageType ∈ packageTypeOptions) ∧
    (∃ m, (runV1 c3Bad sampleWorld).result = RunResult.failure m) :=
  ⟨by decide, (c3_validation_exact c3Bad sampleWorld).2 (by decide)⟩

/-- C6: the enumerated-field validation gate runs before any I/O: on any run
with an invalid `configuration` or `package_type` the process fails and its
trace holds only log output — no network request and no file or directory
creation (the scratch directory included). -/
theorem c6_validation_gate_before_io (c : ConfigsModel) (w : World)
    (h : ¬ (c.Configuration ∈ configurationOptions ∧ c.PackageType ∈ packageTypeOptions)) :
    (∃ m, (runV1 c w).result = RunResult.failure m) ∧
    (∀ e ∈ (runV1 c w).events, e.isDisplay = true) := by
  have hne : c.validate ≠ Except.ok () := fun hv => h ((ConfigsModel.validate_ok_iff c).mp hv)
  obtain ⟨e0, he⟩ := ConfigsModel.validate_error c hne
  constructor
  · refine ⟨"Issue with input: " ++ e0, ?_⟩
    unfold runV1
    simp [he]
  · intro ev hev
    unfold runV1 at hev
    simp [he] at hev
    rw [hev]
    rfl

/-- C6 witness: the out-of-range package type "simulator" fails with a
display-only trace. -/
theorem c6_validation_gate_before_io_witness :
    ¬ (c6Bad.Configuration ∈ configurationOptions ∧ c6Bad.PackageType ∈ packageTypeOptions) ∧
    ((∃ m, (runV1 c6Bad sampleWorld).result = RunResult.failure m) ∧
     (∀ e ∈ (runV1 c6Bad sampleWorld).events, e.isDisplay = true)) :=
  ⟨by decide, c6_validation_gate_before_io c6Bad sampleWorld (by decide)⟩

/-- C4 counterexample: a run with empty `keystore_url` and `package_type`
`none` but an empty `configuration` value exits non-zero (validation rejects
it first), refuting the claim as stated. -/
theorem c4_counterexample :
    c4Bad.KeystoreURL = "" ∧ c4Bad.PackageType = "none" ∧
    (runV1 c4Bad sampleWorld).result ≠ RunResult.success := by
  refine ⟨rfl, rfl, ?_⟩
  decide

/-- C4 (amended): provided the enumerated inputs pass validation and
scratch-directory creation succeeds, a run with empty `keystore_url` and
`package_type` `none` terminates successfully with no file written and no
handoff published. -/
theorem c4_empty_run_short_circuits (c : ConfigsModel) (w : World) (d : String)
    (hc : c.Configuration ∈ configurationOptions)
    (hd : w.tmpDirResult = Except.ok d)
    (hk : c.KeystoreURL = "") (hp : c.PackageType = "none") :
    (runV1 c w).result = RunResult.success ∧
    writtenFiles (runV1 c w) = [] ∧ publishedValues (runV1 c w) = [] := by
  have hv : c.validate = Except.ok () :=
    (ConfigsModel.validate_ok_iff c).mpr ⟨hc, by rw [hp]; decide⟩
  have hks : androidStepResult c w d = Except.ok "" := by
    unfold androidStepResult
    rw [if_pos hk]
  rw [runV1_ok_eq c w d "" hv hd hks]
  have hemp : emptyDoc (assembleBuildConfig c "") = true := by
    unfold emptyDoc assembleBuildConfig
    simp [hk, hp]
  unfold finishV1
  simp [hemp, writtenFiles, publishedValues, Event.fileWriteContent, Event.envmanValue,
    List.filterMap_append, androidStepEvents, hk]

/-- C4 witness: the amended statement at a concrete valid input. -/
theorem c4_empty_run_short_circuits_witness :
    c4Good.Configuration ∈ configurationOptions ∧
    sampleWorld.tmpDirResult = Except.ok "/tmp/scratch" ∧
    c4Good.KeystoreURL = "" ∧ c4Good.PackageType = "none" ∧
    ((runV1 c4Good sampleWorld).result = RunResult.success ∧
     writtenFiles (runV1 c4Good sampleWorld) = [] ∧
     publishedValues (runV1 c4Good sampleWorld) = []) :=
  ⟨by decide, rfl, rfl, rfl,
    c4_empty_run_short_circuits c4Good sampleWorld "/tmp/scratch" (by decide) rfl rfl rfl⟩

/-- C5: for every keystore reference of the form `file://<path>`, the Android
section's keystore field equals the absolutized form of the prefix-stripped
path, and the run performs no network request. -/
theorem c5_local_keystore_no_network (c : ConfigsModel) (w : World)
    (h : hasFileScheme c.KeystoreURL = true) :
    (∀ e ∈ (runV1 c w).events, e.isNetGet = false) ∧
    (∀ bc, (runV1 c w).document = some bc → ∀ m, bc.Android = some m →
      ∀ kv ∈ m, w.wdAbsPath (stripFileScheme c.KeystoreURL) = Except.ok kv.2.Keystore) := by
  constructor
  · intro e he
    have hf := runV1_netGet_of_scheme c w h
    by_contra hne
    have hmem : e ∈ (runV1 c w).events.filter Event.isNetGet := by
      rw [List.mem_filter]
      exact ⟨he, by simpa using hne⟩
    rw [hf] at hmem
    cases hmem
  · intro bc hdoc m hm kv hkv
    obtain ⟨d, ks, hd, hks, hbc⟩ := runV1_document_char c w bc hdoc
    subst hbc
    obtain ⟨hkne, hm2⟩ := assemble_Android_char c ks m hm
    have hks2 : resolveKeystoreResult c w d = Except.ok ks := by
      unfold androidStepResult at hks
      rw [if_neg hkne] at hks
      exact hks
    unfold resolveKeystoreResult at hks2
    rw [if_pos h] at hks2
    cases habs : w.wdAbsPath (stripFileScheme c.KeystoreURL) with
    | error e => rw [habs] at hks2; cases hks2
    | ok a =>
      rw [habs] at hks2
      cases hks2
      subst hm2
      simp only [List.mem_singleton] at hkv
      rw [hkv]

/-- C5 witness: the sample `file://` run touches no network and resolves its
keystore through the absolutization oracle. -/
theorem c5_local_keystore_no_network_witness :
    hasFileScheme cW.KeystoreURL = true ∧
    ((∀ e ∈ (runV1 cW sampleWorld).events, e.isNetGet = false) ∧
     (∀ bc, (runV1 cW sampleWorld).document = some bc → ∀ m, bc.Android = some m →
       ∀ kv ∈ m, sampleWorld.wdAbsPath (stripFileScheme cW.KeystoreURL) = Except.ok kv.2.Keystore)) :=
  ⟨by decide, c5_local_keystore_no_network cW sampleWorld (by decide)⟩

/-- C7: in every assembled document, the android map (when present) and the
ios map (when present) each hold exactly one entry, keyed by the same string,
namely the configuration value. -/
theorem c7_sections_single_key (c : ConfigsModel) (w : World) :
    ∀ bc, (runV1 c w).document = some bc →
      (bc.Android = none ∨ ∃ it, bc.Android = some [(c.Configuration, it)]) ∧
      (bc.IOS = none ∨ ∃ it, bc.IOS = some [(c.Configuration, it)]) := by
  intro bc hdoc
  obtain ⟨d, ks, hd, hks, hbc⟩ := runV1_document_char c w bc hdoc
  subst hbc
  unfold assembleBuildConfig
  constructor
  · by_cases hk : c.KeystoreURL = ""
    · left; simp [hk]
    · right
      refine ⟨{ Keystore := ks, StorePassword := c.KeystorePassword,
                Alias := c.KeystoreAlias, Password := c.PrivateKeyPassword }, ?_⟩
      simp [hk]
  · by_cases hp : c.PackageType = "none"
    · left; simp [hp]
    · right
      refine ⟨{ CodeSignIdentity := c.CodeSignIdentity,
                ProvisioningProfile := c.ProvisioningProfile,
                DevelopmentTeam := c.DevelopmentTeam,
                PackageType := c.PackageType }, ?_⟩
      simp [hp]

/-- C7 witness: the sample run's document carries both sections as singletons
under the configuration key. -/
theorem c7_sections_single_key_witness :
    (runV1 cW sampleWorld).document = some cwDoc ∧
    ((cwDoc.Android = none ∨ ∃ it, cwDoc.Android = some [(cW.Configuration, it)]) ∧
     (cwDoc.IOS = none ∨ ∃ it, cwDoc.IOS = some [(cW.Configuration, it)])) :=
  ⟨by decide, c7_sections_single_key cW sampleWorld cwDoc (by decide)⟩

/-- C8: serialization omits every field whose string value is empty, and a
top-level section is absent exactly when its trigger does not hold
(`keystore_url` empty for android, `package_type` `none` for ios). -/
theorem c8_omitempty_and_section_triggers (c : ConfigsModel) (w : World) :
    (∀ it : AndroidBuildConfigurationItem,
      androidItemFields it = (allAndroidFields it).filter (fun kv => kv.2 != "")) ∧
    (∀ it : IOSBuildConfigurationItem,
      iosItemFields it = (allIOSFields it).filter (fun kv => kv.2 != "")) ∧
    (∀ bc, (runV1 c w).document = some bc →
      ((bc.Android = none ↔ c.KeystoreURL = "") ∧
       (bc.IOS = none ↔ c.PackageType = "none") ∧
       ("android" ∈ (sectionEntries bc).map Prod.fst ↔ ¬ c.KeystoreURL = "") ∧
       ("ios" ∈ (sectionEntries bc).map Prod.fst ↔ ¬ c.PackageType = "none"))) := by
  refine ⟨?_, ?_, ?_⟩
  · intro it
    unfold androidItemFields allAndroidFields
    by_cases h1 : it.Keystore = "" <;> by_cases h2 : it.StorePassword = "" <;>
      by_cases h3 : it.Alias = "" <;> by_cases h4 : it.Password = "" <;>
      simp [h1, h2, h3, h4, List.filter_cons, bne_iff_ne]
  · intro it
    unfold iosItemFields allIOSFields
    by_cases h1 : it.CodeSignIdentity = "" <;> by_cases h2 : it.ProvisioningProfile = "" <;>
      by_cases h3 : it.DevelopmentTeam = "" <;> by_cases h4 : it.PackageType = "" <;>
      simp [h1, h2, h3, h4, List.filter_cons, bne_iff_ne]
  · intro bc hdoc
    obtain ⟨d, ks, hd, hks, hbc⟩ := runV1_document_char c w bc hdoc
    subst hbc
    refine ⟨assemble_Android_none_iff c ks, assemble_IOS_none_iff c ks, ?_, ?_⟩
    · unfold sectionEntries assembleBuildConfig
      by_cases hk : c.KeystoreURL = "" <;> by_cases hp : c.PackageType = "none" <;>
        simp [hk, hp, sortByKey, insertByKey]
    · unfold sectionEntries assembleBuildConfig
      by_cases hk : c.KeystoreURL = "" <;> by_cases hp : c.PackageType = "none" <;>
        simp [hk, hp, sortByKey, insertByKey]

/-- C8 witness: the sample run's document has both triggers active and both
section keys present. -/
theorem c8_omitempty_and_section_triggers_witness :
    (runV1 cW sampleWorld).document = some cwDoc ∧
    ((cwDoc.Android = none ↔ cW.KeystoreURL = "") ∧
     (cwDoc.IOS = none ↔ cW.PackageType = "none") ∧
     ("android" ∈ (sectionEntries cwDoc).map Prod.fst ↔ ¬ cW.KeystoreURL = "") ∧
     ("ios" ∈ (sectionEntries cwDoc).map Prod.fst ↔ ¬ cW.PackageType = "none")) :=
  ⟨by decide, (c8_omitempty_and_section_triggers cW sampleWorld).2.2 cwDoc (by decide)⟩

/-- C9: two runs with identical inputs into two distinct scratch directories
write the same deterministic, stable-key-order serialization evaluated at the
respective scratch directory — so the contents differ at most in occurrences
of the scratch path (through the remote keystore path), and are byte-identical
whenever the keystore reference is local or absent. -/
theorem c9_deterministic_serialization (c : ConfigsModel) (w : World) (d1 d2 : String)
    (s1 s2 : String)
    (h1 : writtenJson (runV1 c (withTmp w d1)) = some s1)
    (h2 : writtenJson (runV1 c (withTmp w d2)) = some s2) :
    s1 = buildJsonOf c w d1 ∧ s2 = buildJsonOf c w d2 ∧
    ((hasFileScheme c.KeystoreURL = true ∨ c.KeystoreURL = "") → s1 = s2) := by
  obtain ⟨e1, k1, he1, hk1, hs1⟩ := writtenJson_runV1_char c (withTmp w d1) s1 h1
  obtain ⟨e2, k2, he2, hk2, hs2⟩ := writtenJson_runV1_char c (withTmp w d2) s2 h2
  have he1' : (Except.ok d1 : Except String String) = Except.ok e1 := he1
  have he2' : (Except.ok d2 : Except String String) = Except.ok e2 := he2
  cases he1'
  cases he2'
  have hk1' : androidStepResult c w d1 = Except.ok k1 := hk1
  have hk2' : androidStepResult c w d2 = Except.ok k2 := hk2
  have hp1 := androidStepResult_ok c w d1 k1 hk1'
  have hp2 := androidStepResult_ok c w d2 k2 hk2'
  subst hp1
  subst hp2
  refine ⟨hs1, hs2, ?_⟩
  intro hloc
  rw [hs1, hs2, keystorePathPure_local c w d1 d2 hloc]

/-- C9 witness: the sample `file://` run written into `/tmp/s1` and `/tmp/s2`
yields the template serializations, which are byte-identical. -/
theorem c9_deterministic_serialization_witness :
    writtenJson (runV1 cW (withTmp sampleWorld "/tmp/s1")) = some cwJson1 ∧
    writtenJson (runV1 cW (withTmp sampleWorld "/tmp/s2")) = some cwJson2 ∧
    (cwJson1 = buildJsonOf cW sampleWorld "/tmp/s1" ∧
     cwJson2 = buildJsonOf cW sampleWorld "/tmp/s2" ∧
     ((hasFileScheme cW.KeystoreURL = true ∨ cW.KeystoreURL = "") → cwJson1 = cwJson2)) :=
  ⟨by decide, by decide,
   c9_deterministic_serialization cW sampleWorld "/tmp/s1" "/tmp/s2" cwJson1 cwJson2
     (by decide) (by decide)⟩

/-- C10: whenever the Android section is present in the assembled document,
its keystore field is a non-empty string — the absolutized local path in the
`file://` case, or `<scratchdir>/keystore.jks` in the remote case — so the
`keystore` key is never omitted from a produced Android section. -/
theorem c10_keystore_field_nonempty (c : ConfigsModel) (w : World)
    (habs : ∀ p a, w.wdAbsPath p = Except.ok a → a ≠ "") :
    ∀ bc, (runV1 c w).document = some bc → ∀ m, bc.Android = some m → ∀ kv ∈ m,
      kv.2.Keystore ≠ "" ∧
      ("keystore", kv.2.Keystore) ∈ androidItemFields kv.2 ∧
      (hasFileScheme c.KeystoreURL = true →
        w.wdAbsPath (stripFileScheme c.KeystoreURL) = Except.ok kv.2.Keystore) ∧
      (hasFileScheme c.KeystoreURL = false →
        ∃ d0, w.tmpDirResult = Except.ok d0 ∧ kv.2.Keystore = pathJoin d0 "keystore.jks") := by
  intro bc hdoc m hm kv hkv
  obtain ⟨d, ks, hd, hks, hbc⟩ := runV1_document_char c w bc hdoc
  subst hbc
  obtain ⟨hkne, hm2⟩ := assemble_Android_char c ks m hm
  subst hm2
  simp only [List.mem_singleton] at hkv
  subst hkv
  unfold androidStepResult at hks
  rw [if_neg hkne] at hks
  unfold resolveKeystoreResult at hks
  by_cases hsch : hasFileScheme c.KeystoreURL
  · rw [if_pos hsch] at hks
    cases habs2 : w.wdAbsPath (stripFileScheme c.KeystoreURL) with
    | error e => rw [habs2] at hks; cases hks
    | ok a =>
      rw [habs2] at hks
      cases hks
      refine ⟨habs _ _ habs2, ?_, fun _ => rfl, ?_⟩
      · unfold androidItemFields
        simp [habs _ _ habs2]
      · intro hcontra
        rw [hsch] at hcontra
        cases hcontra
  · rw [if_neg hsch] at hks
    cases hdl : downloadResult w c.KeystoreURL (pathJoin d "keystore.jks") with
    | error e => rw [hdl] at hks; cases hks
    | ok u =>
      rw [hdl] at hks
      cases hks
      refine ⟨pathJoin_ne_empty d "keystore.jks", ?_, ?_, fun _ => ⟨d, hd, rfl⟩⟩
      · unfold androidItemFields
        simp [pathJoin_ne_empty d "keystore.jks"]
      · intro hcontra
        exact absurd hcontra hsch

/-- C10 witness: the sample world's absolutization never yields an empty path,
and the sample run's Android section carries the non-empty, serialized,
absolutized keystore field. -/
theorem c10_keystore_field_nonempty_witness :
    (∀ p a, sampleWorld.wdAbsPath p = Except.ok a → a ≠ "") ∧
    (∀ bc, (runV1 cW sampleWorld).document = some bc → ∀ m, bc.Android = some m →
      ∀ kv ∈ m,
        kv.2.Keystore ≠ "" ∧
        ("keystore", kv.2.Keystore) ∈ androidItemFields kv.2 ∧
        (hasFileScheme cW.KeystoreURL = true →
          sampleWorld.wdAbsPath (stripFileScheme cW.KeystoreURL) = Except.ok kv.2.Keystore) ∧
        (hasFileScheme cW.KeystoreURL = false →
          ∃ d0, sampleWorld.tmpDirResult = Except.ok d0 ∧
            kv.2.Keystore = pathJoin d0 "keystore.jks")) := by
  have habs : ∀ p a, sampleWorld.wdAbsPath p = Except.ok a → a ≠ "" := by
    intro p a h hcontra
    subst hcontra
    by_cases hp : p = ""
    · simp [sampleWorld, hp] at h
    · simp [sampleWorld, hp] at h
      have hlen := congrArg String.length h
      rw [String.length_append] at hlen
      rw [show ("/root" : String).length = 5 from rfl, String.length_empty] at hlen
      omega
  exact ⟨habs, c10_keystore_field_nonempty cW sampleWorld habs⟩

/-- C1: in the stepconf variant, the displayed rendering of the assembled
document is the redacted serialization — any non-empty store password or key
password appears as the mask token `*****` — while the persisted `build.json`
is the unredacted serialization carrying both passwords verbatim. -/
theorem c1_redacted_display_literal_persistence (c : ConfigsModel) (w : World) :
    (∀ s, displayedJson (runV2 c w) = some s → ∀ bc, (runV2 c w).document = some bc →
      s = marshalIndentBuildConfiguration (redactBuildConfig c bc) ∧
      (∀ m, (redactBuildConfig c bc).Android = some m → ∀ kv ∈ m,
        (c.KeystorePassword ≠ "" → kv.2.StorePassword = "*****") ∧
        (c.PrivateKeyPassword ≠ "" → kv.2.Password = "*****"))) ∧
    (∀ s, writtenJson (runV2 c w) = some s → ∀ bc, (runV2 c w).document = some bc →
      s = marshalIndentBuildConfiguration bc ∧
      (∀ m, bc.Android = some m → ∀ kv ∈ m,
        kv.2.StorePassword = c.KeystorePassword ∧ kv.2.Password = c.PrivateKeyPassword)) := by
  constructor
  · intro s hs bc hbc
    obtain ⟨d, ks, hd, hks, hsEq, hdoc⟩ := displayedJson_runV2_char c w s hs
    have hbc2 : assembleBuildConfig c ks = bc := by
      have := hdoc.symm.trans hbc
      injection this
    subst hbc2
    refine ⟨hsEq, ?_⟩
    intro m hm kv hkv
    by_cases hk : c.KeystoreURL = ""
    · have hnone : (assembleBuildConfig c ks).Android = none :=
        (assemble_Android_none_iff c ks).mpr hk
      rw [redact_none c _ (by rw [hnone]; rfl), hnone] at hm
      cases hm
    · rw [redact_assembled_fields c ks hk] at hm
      injection hm with hm2
      subst hm2
      simp only [List.mem_singleton] at hkv
      subst hkv
      constructor
      · intro hsp
        simp [hsp]
      · intro hp
        simp [hp]
  · intro s hs bc hbc
    obtain ⟨d, ks, hd, hks, hsEq, hdoc⟩ := writtenJson_runV2_char c w s hs
    have hbc2 : assembleBuildConfig c ks = bc := by
      have := hdoc.symm.trans hbc
      injection this
    subst hbc2
    refine ⟨hsEq, ?_⟩
    intro m hm kv hkv
    obtain ⟨hkne, hm2⟩ := assemble_Android_char c ks m hm
    subst hm2
    simp only [List.mem_singleton] at hkv
    subst hkv
    exact ⟨rfl, rfl⟩

/-- C1 witness: the sample run displays the masked serialization and persists
the literal one. -/
theorem c1_redacted_display_literal_persistence_witness :
    displayedJson (runV2 cW sampleWorld) = some cwDispStr ∧
    (runV2 cW sampleWorld).document = some cwDoc ∧
    writtenJson (runV2 cW sampleWorld) = some cwBuildJson ∧
    (cwDispStr = marshalIndentBuildConfiguration (redactBuildConfig cW cwDoc) ∧
     (∀ m, (redactBuildConfig cW cwDoc).Android = some m → ∀ kv ∈ m,
       (cW.KeystorePassword ≠ "" → kv.2.StorePassword = "*****") ∧
       (cW.PrivateKeyPassword ≠ "" → kv.2.Password = "*****"))) ∧
    (cwBuildJson = marshalIndentBuildConfiguration cwDoc ∧
     (∀ m, cwDoc.Android = some m → ∀ kv ∈ m,
       kv.2.StorePassword = cW.KeystorePassword ∧ kv.2.Password = cW.PrivateKeyPassword)) :=
  ⟨by decide, by decide, by decide,
   (c1_redacted_display_literal_persistence cW sampleWorld).1 cwDispStr (by decide)
     cwDoc (by decide),
   (c1_redacted_display_literal_persistence cW sampleWorld).2 cwBuildJson (by decide)
     cwDoc (by decide)⟩

/-- C2 (the code at the failing input): `download` never inspects the HTTP
status code — a GET answered with status 404 and an error-page body still
returns success, and the whole run proceeds to exit 0; the download issues
exactly one GET, with no retry. -/
theorem c2_download_ignores_status :
    statusFailWorld.httpGet "https://example.com/k.jks" =
      Except.ok { statusCode := 404, body := [60, 104, 116, 109, 108, 62] } ∧
    downloadResult statusFailWorld "https://example.com/k.jks" "/tmp/scratch/keystore.jks" =
      Except.ok () ∧
    (runV1 cRemote statusFailWorld).result = RunResult.success ∧
    (downloadEvents "https://example.com/k.jks" "/tmp/scratch/keystore.jks").countP
      (fun e => e.isNetGet) = 1 :=
  ⟨rfl, rfl, by decide, by decide⟩
